import Mathlib

/-!
Verification of the Workana scraping system against its specification.

The Lean definitions below are a shallow embedding of the Python sources:

  - src/parsers/job_parser.py   (parse_budget, the client-country selector chain)
  - src/parsers/date_parser.py  (parse_relative_date, extract_job_id_from_url)
  - src/storage/database.py     (WorkanaDatabase: save_job, mark_job_sent_to_slack,
                                 get_existing_job_ids, with the SQLite schema of
                                 create_tables including its NOT NULL constraints)
  - src/scrapers/workana_scraper.py (WorkanaScraper.scrape_page, WorkanaScraper.scrape)

Python strings are embedded as `String` / `List Char`, Python `None` as `Option`,
timestamps (`datetime.now()`) as integer seconds passed in explicitly, and the
SQLite `jobs` table as an association list from the `id` column to the row.
Functions that can raise (the SQLite NOT NULL integrity error) return `Except`.
Definitions named after Python functions follow the source line by line; comments
cite the file and lines they embed.
-/

namespace Workana

/-! Small string and character helpers shared by the embeddings.  All inputs in
play are ASCII, so Python `str.lower()` and `str.strip()` are embedded as
ASCII-level maps. -/

/-- Whitespace as stripped by Python `str.strip()` (ASCII inputs). -/
def isWS (c : Char) : Bool := c = ' ' || c = '\t' || c = '\n' || c = '\r'

/-- Python `s.strip()` on a character list: drop whitespace from both ends. -/
def stripWS (cs : List Char) : List Char :=
  ((cs.dropWhile isWS).reverse.dropWhile isWS).reverse

/-- Python `s.lower()` on a character list (ASCII inputs). -/
def lowerL (cs : List Char) : List Char := cs.map Char.toLower

/-- Python substring test `needle in haystack`. -/
def containsSub (needle : List Char) : List Char → Bool
  | [] => needle.isPrefixOf ([] : List Char)
  | c :: rest => needle.isPrefixOf (c :: rest) || containsSub needle rest

/-- Python `int(...)` applied to a run of ASCII digit characters. -/
def digitsToNat (cs : List Char) : Nat := cs.foldl (fun n c => 10 * n + (c.toNat - 48)) 0

/-- Accumulator for `digitRuns`: the digit run currently being read, reversed. -/
def digitRunsAux : List Char → Option (List Char) → List (List Char)
  | [], none => []
  | [], some run => [run.reverse]
  | c :: rest, none =>
      if c.isDigit then digitRunsAux rest (some [c]) else digitRunsAux rest none
  | c :: rest, some run =>
      if c.isDigit then digitRunsAux rest (some (c :: run))
      else run.reverse :: digitRunsAux rest none

/-- The maximal runs of ASCII digits in a string, in order of appearance.  This is
`re.findall(r'[\d,]+', text)` as used by `parse_budget`, whose `text` argument has
already had every comma removed, so each match is exactly a maximal digit run. -/
def digitRuns (cs : List Char) : List (List Char) := digitRunsAux cs none

/-! Embedding of `parse_budget`, src/parsers/job_parser.py lines 14-56. -/

/-- Result of `parse_budget`: the dict `{'min': ..., 'max': ..., 'type': ...}`. -/
structure BudgetResult where
  min : Option Nat
  max : Option Nat
  type : Option String
deriving DecidableEq, Repr

/-- `parse_budget(budget_text)`, src/parsers/job_parser.py lines 14-56.

Line by line: the falsy check `if not budget_text` (line 22) returns the all-null
dict; `budget_text.strip()` (line 25); the hourly test
`'/ hour' in budget_text.lower() or 'hourly' in budget_text.lower()` (line 31);
number extraction `re.findall(r'[\d,]+', budget_text.replace(',', ''))` followed by
`int` (lines 37-38); then the over / more than, less than / under, two-number,
one-number and zero-number branches (lines 40-50). -/
def parse_budget (budget_text : String) : BudgetResult :=
  if budget_text = "" then ⟨none, none, none⟩
  else
    let t := stripWS budget_text.data
    let low := lowerL t
    let btype : Option String :=
      if containsSub "/ hour".data low || containsSub "hourly".data low then some "hourly"
      else some "fixed"
    let numbers := (digitRuns (t.filter (fun c => c ≠ ','))).map digitsToNat
    if containsSub "over".data low || containsSub "more than".data low then
      { min := numbers.head?, max := none, type := btype }
    else if containsSub "less than".data low || containsSub "under".data low then
      { min := none, max := numbers.head?, type := btype }
    else
      match numbers with
      | a :: b :: _ => { min := some a, max := some b, type := btype }
      | [a] => { min := some a, max := none, type := btype }
      | [] => { min := none, max := none, type := btype }

/-- The spec's classification condition for C7: the budget text contains "/ hour"
or "hourly", case-insensitively.  Evaluated, as the code does, on the stripped
lowered text; both needles begin and end with non-whitespace characters, so
stripping edge whitespace neither creates nor destroys an occurrence. -/
def hourlyText (s : String) : Bool :=
  containsSub "/ hour".data (lowerL (stripWS s.data)) ||
    containsSub "hourly".data (lowerL (stripWS s.data))

/-- C7 counterexample: the claim says the type of the result is never null for any
input, including the empty string; but `parse_budget ""` takes the falsy-input
early return (src/parsers/job_parser.py line 22-23) and its type is null. -/
theorem c7_budget_type_counterexample : (parse_budget "").type = none := by decide

/-- C7 (amended): for every non-empty input string, `parse_budget` classifies the
result's type as "hourly" when the text contains "/ hour" or "hourly"
case-insensitively and as "fixed" in every other case; for the empty string the
function returns the all-null result, so only there the type is null. -/
theorem c7_budget_type_amended (s : String) (h : s ≠ "") :
    (parse_budget s).type = some (if hourlyText s then "hourly" else "fixed") := by
  simp only [parse_budget, if_neg h, hourlyText]
  repeat' split
  all_goals simp_all

/-- Witness for C7 (amended) at the spec's own example input. -/
theorem c7_budget_type_amended_witness :
    (parse_budget "Over USD 45 / hour").type = some "hourly" := by
  have h := c7_budget_type_amended "Over USD 45 / hour" (by decide)
  rw [h]
  decide

/-! Embedding of `parse_relative_date`, src/parsers/date_parser.py lines 9-79.
The regex searches `re.search(r'(\d+)\s*(?:ALT1|ALT2)s?\s*ago', text)` are embedded
by a left-to-right scanner with the same backtracking behavior. -/

/-- The literal `ago` after optional whitespace (`\s*ago`). -/
def agoLiteral (cs : List Char) : Bool := "ago".data.isPrefixOf (cs.dropWhile isWS)

/-- The regex tail `s?\s*ago`: an optional 's' (tried first, with backtracking),
optional whitespace, then the literal "ago". -/
def agoTail (cs : List Char) : Bool :=
  (match cs with
   | 's' :: r => agoLiteral r
   | _ => false) || agoLiteral cs

/-- The regex tail `(?:ALT1|ALT2|...)s?\s*ago`: alternatives tried in order, each
with full backtracking into `agoTail`. -/
def altAgoTail (alts : List (List Char)) (cs : List Char) : Bool :=
  match alts with
  | [] => false
  | a :: rest => (a.isPrefixOf cs && agoTail (cs.drop a.length)) || altAgoTail rest cs

/-- `re.search(r'(\d+)\s*(?:ALT1|ALT2)s?\s*ago', text)`: scan left to right for the
first position where a maximal digit run, optional whitespace and `altAgoTail`
match, and return the digit run's integer value.  Taking the maximal digit run and
the maximal whitespace run is faithful to the backtracking engine because the
character that must follow (a letter of an alternative, resp. a letter) is neither
a digit nor whitespace. -/
def searchAmountAgo (alts : List (List Char)) : List Char → Option Nat
  | [] => none
  | c :: rest =>
    if c.isDigit then
      if altAgoTail alts (((c :: rest).dropWhile Char.isDigit).dropWhile isWS) then
        some (digitsToNat ((c :: rest).takeWhile Char.isDigit))
      else searchAmountAgo alts rest
    else searchAmountAgo alts rest

/-- `re.sub(r'^published:\s*', '', date_text)` applied to the already lowered,
stripped text (src/parsers/date_parser.py line 21). -/
def dropPublished (cs : List Char) : List Char :=
  if "published:".data.isPrefixOf cs then (cs.drop 10).dropWhile isWS else cs

/-- `parse_relative_date(date_text)`, src/parsers/date_parser.py lines 9-79.

`now` stands for `datetime.now()` in seconds and the result is the returned
timestamp in seconds (`none` for Python `None`).  The branches appear in source
order: the falsy check (line 14), strip and lower (line 18), the "published:"
prefix removal (line 21), "just now"/"now" (line 26), minutes (line 30), hours
(line 36), "almost an hour ago"/"almost 1 hour ago" (line 42), days (line 46),
"yesterday" (line 52), weeks (line 56), months (line 62).  The final fallback over
the four absolute `datetime.strptime` formats (lines 68-76) is the explicit
parameter `absFallback`; the claims about this function are settled on inputs that
never reach it, and the theorems quantify over it. -/
def parse_relative_date (absFallback : List Char → Option Int) (now : Int)
    (date_text : String) : Option Int :=
  if date_text = "" then none
  else
    let t := dropPublished (lowerL (stripWS date_text.data))
    if containsSub "just now".data t || t = "now".data then some (now - 30)
    else
      match searchAmountAgo ["minute".data, "min".data] t with
      | some n => some (now - 60 * n)
      | none =>
        match searchAmountAgo ["hour".data, "hr".data] t with
        | some n => some (now - 3600 * n)
        | none =>
          if containsSub "almost an hour ago".data t ||
              containsSub "almost 1 hour ago".data t then
            some (now - 5400)
          else
            match searchAmountAgo ["day".data, "d".data] t with
            | some n => some (now - 86400 * n)
            | none =>
              if containsSub "yesterday".data t then some (now - 129600)
              else
                match searchAmountAgo ["week".data, "w".data] t with
                | some n => some (now - 7 * 86400 * n)
                | none =>
                  match searchAmountAgo ["month".data, "mo".data] t with
                  | some n => some (now - 30 * 86400 * n)
                  | none => absFallback t

/-- C8 counterexample: the claim says "almost 1 hour ago" maps to now - 1h30m, but
the hours regex (line 36) runs before the "almost" check (line 42) and matches the
"1 hour ago" inside it, so the code returns now - 1h.  Evaluated at now = 0. -/
theorem c8_almost_hour_counterexample :
    parse_relative_date (fun _ => none) 0 "almost 1 hour ago" = some (-3600) ∧
      (-3600 : Int) ≠ -5400 := by
  constructor
  · decide
  · decide

/-- C8 (amended): "almost an hour ago" (no digit, so no earlier regex matches)
maps to now - 1h30m, case-insensitively; but "almost 1 hour ago" is captured by
the earlier "N hour(s)/hr(s) ago" rule, which runs before the "almost" check, and
maps to now - 1h; plain "N hour(s)/hr(s) ago" inputs map to now - N hours.  The
absolute-date fallback is never reached on these inputs (the statement quantifies
over it). -/
theorem c8_almost_hour_amended (f : List Char → Option Int) (now : Int) :
    parse_relative_date f now "almost an hour ago" = some (now - 5400) ∧
      parse_relative_date f now "Almost An Hour Ago" = some (now - 5400) ∧
      parse_relative_date f now "almost 1 hour ago" = some (now - 3600) ∧
      parse_relative_date f now "3 hours ago" = some (now - 10800) ∧
      parse_relative_date f now "Published: 12 hrs ago" = some (now - 43200) :=
  ⟨rfl, rfl, rfl, rfl, rfl⟩

/-! Embedding of `extract_job_id_from_url`, src/parsers/date_parser.py
lines 82-100. -/

/-- Python `s.replace(pat, '')` for a non-empty `pat`, with explicit fuel; every
step either drops a character or a whole occurrence of `pat`, so fuel equal to the
length of the scanned list (as `removeAll` supplies) never runs out. -/
def removeAllFuel (pat : List Char) : Nat → List Char → List Char
  | 0, cs => cs
  | _ + 1, [] => []
  | fuel + 1, c :: rest =>
    if pat.isPrefixOf (c :: rest) && !pat.isEmpty then
      removeAllFuel pat fuel ((c :: rest).drop pat.length)
    else c :: removeAllFuel pat fuel rest

/-- Python `s.replace(pat, '')`: delete every occurrence of `pat`. -/
def removeAll (pat cs : List Char) : List Char := removeAllFuel pat cs.length cs

/-- The two host-prefix removals of src/parsers/date_parser.py lines 91-92:
`url.replace('https://www.workana.com', '').replace('http://www.workana.com', '')`. -/
def hostStripped (url : String) : List Char :=
  removeAll "http://www.workana.com".data (removeAll "https://www.workana.com".data url.data)

/-- `re.search(r'/job/([^/?]+)', url)` (line 95): at the first position where the
literal "/job/" is followed by at least one character other than '/' and '?',
return the maximal run of such characters; on failure advance one character, as
the regex engine does. -/
def searchJobSlug : List Char → Option (List Char)
  | [] => none
  | c :: rest =>
    if "/job/".data.isPrefixOf (c :: rest) then
      let seg := ((c :: rest).drop 5).takeWhile (fun ch => ch ≠ '/' && ch ≠ '?')
      if seg.isEmpty then searchJobSlug rest else some seg
    else searchJobSlug rest

/-- The acceptance test `searchJobSlug` applies at one position: the literal
"/job/" followed by at least one character other than '/' and '?'.  Spelling it
out lets a theorem say "no match starts before position p". -/
def jobMatchHere (cs : List Char) : Bool :=
  "/job/".data.isPrefixOf cs &&
    !((cs.drop 5).takeWhile (fun ch => ch ≠ '/' && ch ≠ '?')).isEmpty

/-- Python `s.split(sep)` for a one-character separator: empty fields are kept and
the result always has at least one element. -/
def splitOnCharL (sep : Char) : List Char → List (List Char)
  | [] => [[]]
  | c :: rest =>
    match splitOnCharL sep rest with
    | s :: ss => if c = sep then [] :: s :: ss else (c :: s) :: ss
    | [] => [[]]

/-- Python `s.strip('/')`. -/
def stripSlashes (cs : List Char) : List Char :=
  ((cs.dropWhile (fun c => c = '/')).reverse.dropWhile (fun c => c = '/')).reverse

/-- `extract_job_id_from_url(url)`, src/parsers/date_parser.py lines 82-100: the
falsy check (line 87), the two host-prefix removals (lines 91-92), the
`/job/([^/?]+)` search (line 95), and the fallback
`url.strip('/').split('/')[-1].split('?')[0]` (line 100). -/
def extract_job_id_from_url (url : String) : String :=
  if url = "" then ""
  else
    match searchJobSlug (hostStripped url) with
    | some seg => ⟨seg⟩
    | none =>
      ⟨((splitOnCharL '/' (stripSlashes (hostStripped url))).getLastD []).takeWhile
        (fun c => c ≠ '?')⟩

/-- Modelled from the spec wording of C5: "the last non-empty path segment with
any query string removed" — drop everything from the first '?' on, split the rest
on '/', and take the last non-empty segment (empty when there is none). -/
def specLastNonEmptySegment (cs : List Char) : List Char :=
  ((splitOnCharL '/' (cs.takeWhile (fun c => c ≠ '?'))).filter
    (fun seg => !seg.isEmpty)).getLastD []

/-- C5 counterexample: on "https://www.workana.com/jobs/?page=2" the "/job/"
marker is absent and the last non-empty path segment with the query removed is
"jobs", but the code's fallback takes the last '/'-separated component "?page=2"
and cuts it at its '?', returning the empty string. -/
theorem c5_job_id_counterexample :
    extract_job_id_from_url "https://www.workana.com/jobs/?page=2" = "" ∧
      specLastNonEmptySegment "/jobs/?page=2".data = "jobs".data ∧
      ("" : String) ≠ "jobs" := by
  refine ⟨by decide, by decide, by decide⟩

/-- A list is a Boolean prefix of itself followed by anything. -/
theorem isPrefixOf_append_self {α : Type} [DecidableEq α] (xs ys : List α) :
    xs.isPrefixOf (xs ++ ys) = true := by
  induction xs with
  | nil => simp [List.isPrefixOf]
  | cons a as ih => simp [List.isPrefixOf, ih]

/-- `takeWhile` over a concatenation whose left part satisfies the predicate
throughout and whose right part is empty or starts with a failing element. -/
theorem takeWhile_all_append {α : Type} (p : α → Bool) (seg rest : List α)
    (hseg : ∀ c ∈ seg, p c = true)
    (hrest : match rest with | [] => True | c :: _ => p c = false) :
    (seg ++ rest).takeWhile p = seg := by
  induction seg with
  | nil =>
    cases rest with
    | nil => rfl
    | cons c r =>
      have hc : p c = false := hrest
      simp [List.takeWhile, hc]
  | cons a s ih =>
    have ha : p a = true := hseg a (by simp)
    simp only [List.cons_append, List.takeWhile, ha, List.cons.injEq, true_and]
    exact ih fun c hc => hseg c (by simp [hc])

/-- The scanner skips a position at which its acceptance test fails. -/
theorem searchJobSlug_cons (c : Char) (rest : List Char)
    (h : jobMatchHere (c :: rest) = false) :
    searchJobSlug (c :: rest) = searchJobSlug rest := by
  simp only [searchJobSlug]
  by_cases hp : "/job/".data.isPrefixOf (c :: rest)
  · have hseg : (((c :: rest).drop 5).takeWhile
        (fun ch => ch ≠ '/' && ch ≠ '?')).isEmpty = true := by
      rw [jobMatchHere, hp] at h
      simpa using h
    rw [if_pos hp, if_pos hseg]
  · rw [if_neg hp]

/-- The scanner skips a whole prefix in which its acceptance test fails at every
position, so the search continues in the tail. -/
theorem searchJobSlug_append (pre tail : List Char)
    (h : ∀ p, p < pre.length → jobMatchHere ((pre ++ tail).drop p) = false) :
    searchJobSlug (pre ++ tail) = searchJobSlug tail := by
  induction pre with
  | nil => rfl
  | cons c pre ih =>
    rw [List.cons_append]
    rw [searchJobSlug_cons c (pre ++ tail) (by simpa using h 0 (by simp))]
    apply ih
    intro p hp
    have hnext := h (p + 1) (by simpa using Nat.succ_lt_succ hp)
    simpa using hnext

/-- C5 (amended): after the host prefixes are stripped, the id is the non-empty
run of characters other than '/' and '?' that follows the first occurrence of
the literal "/job/" admitting such a run (ended by '/', '?' or the end of the
url), wherever in the url that occurrence sits; when the `/job/([^/?]+)` search
fails, the function returns the last '/'-separated component of the
slash-trimmed url, truncated at its first '?' — which is the last non-empty path
segment with the query removed only when the last component is not query-only
(compare the counterexample). -/
theorem c5_job_id_amended :
    (∀ (url : String) (pre seg rest : List Char), url ≠ "" →
        hostStripped url = pre ++ ("/job/".data ++ (seg ++ rest)) →
        (∀ p, p < pre.length → jobMatchHere ((hostStripped url).drop p) = false) →
        seg ≠ [] →
        (∀ c ∈ seg, c ≠ '/' ∧ c ≠ '?') →
        (rest = [] ∨ (∃ r, rest = '/' :: r) ∨ (∃ r, rest = '?' :: r)) →
        extract_job_id_from_url url = ⟨seg⟩) ∧
    (∀ url : String, url ≠ "" → searchJobSlug (hostStripped url) = none →
        extract_job_id_from_url url =
          ⟨((splitOnCharL '/' (stripSlashes (hostStripped url))).getLastD []).takeWhile
            (fun c => c ≠ '?')⟩) := by
  constructor
  · intro url pre seg rest hurl hstrip hearly hne hvalid hrest
    rw [hstrip] at hearly
    rw [extract_job_id_from_url, if_neg hurl, hstrip]
    rw [searchJobSlug_append pre ("/job/".data ++ (seg ++ rest)) hearly]
    have hcons : "/job/".data ++ (seg ++ rest) = '/' :: 'j' :: 'o' :: 'b' :: '/' :: (seg ++ rest) := rfl
    rw [hcons, searchJobSlug]
    have hpref : "/job/".data.isPrefixOf ('/' :: 'j' :: 'o' :: 'b' :: '/' :: (seg ++ rest)) = true := by
      exact isPrefixOf_append_self "/job/".data (seg ++ rest)
    rw [if_pos hpref]
    have hdrop : List.drop 5 ('/' :: 'j' :: 'o' :: 'b' :: '/' :: (seg ++ rest)) = seg ++ rest := rfl
    have htake : (seg ++ rest).takeWhile (fun ch => ch ≠ '/' && ch ≠ '?') = seg := by
      apply takeWhile_all_append
      · intro c hc
        have := hvalid c hc
        simp [this.1, this.2]
      · rcases hrest with h | ⟨r, h⟩ | ⟨r, h⟩ <;> subst h <;> simp
    simp only [hdrop, htake]
    rw [if_neg (by simpa [List.isEmpty_iff] using hne)]
  · intro url hurl hsearch
    rw [extract_job_id_from_url, if_neg hurl, hsearch]

/-- Witness for C5 (amended): the marker at the front of the path, the marker
after an earlier path segment, and the fallback, at concrete urls. -/
theorem c5_job_id_amended_witness :
    extract_job_id_from_url "https://www.workana.com/job/my-slug-123?ref=home" = "my-slug-123" ∧
      extract_job_id_from_url "https://www.workana.com/en/job/slug" = "slug" ∧
      extract_job_id_from_url "https://www.workana.com/freelancers" = "freelancers" := by
  refine ⟨?_, ?_, ?_⟩
  · exact c5_job_id_amended.1 "https://www.workana.com/job/my-slug-123?ref=home"
      [] "my-slug-123".data "?ref=home".data (by decide) (by decide) (by decide)
      (by decide) (by decide) (Or.inr (Or.inr ⟨"ref=home".data, by decide⟩))
  · exact c5_job_id_amended.1 "https://www.workana.com/en/job/slug"
      "/en".data "slug".data [] (by decide) (by decide) (by decide)
      (by decide) (by decide) (Or.inl rfl)
  · have h := c5_job_id_amended.2 "https://www.workana.com/freelancers" (by decide) (by decide)
    rw [h]
    decide

/-! Embedding of the client-country selector chain of
`parse_job_element_from_html`, src/parsers/job_parser.py lines 358-370 (the
selenium twin at lines 199-215 triggers its fallbacks the same way, on a missing
element only). -/

/-- The country selector results for one listing's client section: for each
selector of the chain, `none` when no element matches and `some t` when an element
matches and its `get_text(strip=True)` is `t` (possibly the empty string).  The
chain, in declared order: primary `span.country > span.country-name > a`
(SELECTORS['client_country']), fallback 1 `span.country-name > a`, fallback 2
`span.country > a`. -/
structure CountrySelectors where
  primary : Option String
  fallback1 : Option String
  fallback2 : Option String
deriving DecidableEq, Repr

/-- The `client_country` computation of src/parsers/job_parser.py lines 358-370:
take the text of the first selector that matches an element; only a missing
element (`select_one` returning `None`) moves on to the next selector. -/
def clientCountryFromHtml (d : CountrySelectors) : Option String :=
  match d.primary with
  | some t => some t
  | none =>
    match d.fallback1 with
    | some t => some t
    | none =>
      match d.fallback2 with
      | some t => some t
      | none => none

/-- Modelled from the spec wording of C6: try the selectors in declared order,
stop at the first non-empty result; if all fail, the field is null. -/
def specChainFirstNonEmpty (d : CountrySelectors) : Option String :=
  [d.primary, d.fallback1, d.fallback2].findSome? fun r =>
    r.bind fun t => if t = "" then none else some t

/-- C6 counterexample: when the primary selector matches an element whose text is
empty while the first fallback would yield "Brazil", the code stops at the primary
match and returns the empty string, not the chain's first non-empty result. -/
theorem c6_country_chain_counterexample :
    clientCountryFromHtml ⟨some "", some "Brazil", none⟩ = some "" ∧
      specChainFirstNonEmpty ⟨some "", some "Brazil", none⟩ = some "Brazil" ∧
      (some "" : Option String) ≠ some "Brazil" := by
  refine ⟨by decide, by decide, by decide⟩

/-- C6 (amended): the chain stops at the first selector that matches an element,
not at the first non-empty text; provided no selector matches an element with
empty text, this coincides with the spec's stop-at-first-non-empty contract; a
listing whose country element matches only the secondary selector yields that
selector's text, and when no selector matches the field is null. -/
theorem c6_country_chain_amended (d : CountrySelectors)
    (h1 : d.primary ≠ some "") (h2 : d.fallback1 ≠ some "") (h3 : d.fallback2 ≠ some "") :
    clientCountryFromHtml d = specChainFirstNonEmpty d ∧
      (∀ t, d.primary = none → d.fallback1 = some t → clientCountryFromHtml d = some t) ∧
      (d.primary = none → d.fallback1 = none → d.fallback2 = none →
        clientCountryFromHtml d = none) := by
  obtain ⟨p, f1, f2⟩ := d
  refine ⟨?_, ?_, ?_⟩
  · cases p <;> cases f1 <;> cases f2 <;>
      simp_all [clientCountryFromHtml, specChainFirstNonEmpty]
  · intro t hp hf
    subst hp; subst hf
    rfl
  · intro hp hf1 hf2
    subst hp; subst hf1; subst hf2
    rfl

/-- Witness for C6 (amended): a listing whose country element matches only the
first fallback selector. -/
theorem c6_country_chain_amended_witness :
    clientCountryFromHtml ⟨none, some "Brazil", none⟩ =
        specChainFirstNonEmpty ⟨none, some "Brazil", none⟩ ∧
      clientCountryFromHtml ⟨none, some "Brazil", none⟩ = some "Brazil" := by
  have h := c6_country_chain_amended ⟨none, some "Brazil", none⟩
    (by decide) (by decide) (by decide)
  exact ⟨h.1, h.2.1 "Brazil" rfl rfl⟩

/-! Embedding of the SQLite store, src/storage/database.py.  The `jobs` table of
`create_tables` (lines 25-54) becomes an association list from the `id` column to
the row; `datetime.now()` becomes the explicit integer parameter `now`.  Columns
declared NOT NULL (`title`, `url`, `scraped_at`, `first_seen_at`, `last_seen_at`)
are non-optional in the row; writing NULL into one of them raises
sqlite3.IntegrityError, embedded as `Except.error`.  SQLite's `TEXT PRIMARY
KEY` admits NULL, hence the `Option String` key; uniqueness of the non-null keys
is a consequence of `save_job`'s insert-only-if-absent logic, proved below. -/

/-- A scraped job record as the parser builds it and `save_job` consumes it (the
`job_data` dict).  Fields the parser may leave as Python `None` are `Option`;
`skills` is the (possibly empty) list the parser always sets; the three Boolean
fields are the values of `save_job`'s `.get(..., False)` reads. -/
structure JobData where
  id : Option String
  title : Option String
  description : Option String
  url : Option String
  postedDateRelative : Option String
  postedDateTimestamp : Option Int
  bidsCount : Option Nat
  budget : Option String
  budgetMin : Option Nat
  budgetMax : Option Nat
  budgetType : Option String
  skills : List String
  clientName : Option String
  clientCountry : Option String
  clientRating : Option Rat
  clientPaymentVerified : Bool
  clientLastReply : Option String
  isFeatured : Bool
  isMaxProject : Bool
deriving DecidableEq

/-- One row of the `jobs` table, columns as in `create_tables` (lines 25-54). -/
structure JobRow where
  title : String
  description : Option String
  url : String
  postedDateRelative : Option String
  postedDateTimestamp : Option Int
  bidsCount : Option Nat
  budget : Option String
  budgetMin : Option Nat
  budgetMax : Option Nat
  budgetType : Option String
  skills : Option (List String)
  clientName : Option String
  clientCountry : Option String
  clientRating : Option Rat
  clientPaymentVerified : Bool
  clientLastReply : Option String
  isFeatured : Bool
  isMaxProject : Bool
  scrapedAt : Int
  firstSeenAt : Int
  lastSeenAt : Int
  sentToSlack : Bool
  slackSentAt : Option Int
  exportedToSheets : Bool
  sheetsExportedAt : Option Int
deriving DecidableEq

/-- The `jobs` table: rows keyed by the `id` column, in insertion order. -/
abbrev Store := List (Option String × JobRow)

/-- `job_exists(job_id)`, lines 109-114: `SELECT id FROM jobs WHERE id = ?`.
An SQL comparison against a NULL parameter matches no row. -/
def job_exists (store : Store) (jobId : Option String) : Bool :=
  match jobId with
  | none => false
  | some s => store.any fun e => e.1 = some s

/-- Python `x or ''` on an optional string (get_existing_job_ids line 129). -/
def orEmpty : Option String → String
  | some s => s
  | none => ""

/-- Python f-string interpolation of the id column (`None` prints as "None"). -/
def pyShow : Option String → String
  | some s => s
  | none => "None"

/-- `get_existing_job_ids()`, lines 116-131: one composite key
`f"{job_id}|{client_name or ''}"` per row.  The Python function collects them
into a set; the embedding returns the keys in row order and is consulted by
membership only. -/
def get_existing_job_ids (store : Store) : List String :=
  store.map fun e => pyShow e.1 ++ "|" ++ orEmpty e.2.clientName

/-- The `skills_json` preparation of `save_job`, lines 142-144: an empty list is
falsy, so NULL is stored; otherwise the JSON dump, kept here as the list. -/
def skillsJson (jd : JobData) : Option (List String) :=
  if jd.skills = [] then none else some jd.skills

/-- The row INSERTed for a new job, lines 146-186: the business fields from
`job_data`, all three timestamps set to now, both delivery flags cleared. -/
def insertRow (jd : JobData) (title url : String) (now : Int) : JobRow :=
  { title := title
    description := jd.description
    url := url
    postedDateRelative := jd.postedDateRelative
    postedDateTimestamp := jd.postedDateTimestamp
    bidsCount := jd.bidsCount
    budget := jd.budget
    budgetMin := jd.budgetMin
    budgetMax := jd.budgetMax
    budgetType := jd.budgetType
    skills := skillsJson jd
    clientName := jd.clientName
    clientCountry := jd.clientCountry
    clientRating := jd.clientRating
    clientPaymentVerified := jd.clientPaymentVerified
    clientLastReply := jd.clientLastReply
    isFeatured := jd.isFeatured
    isMaxProject := jd.isMaxProject
    scrapedAt := now
    firstSeenAt := now
    lastSeenAt := now
    sentToSlack := false
    slackSentAt := none
    exportedToSheets := false
    sheetsExportedAt := none }

/-- The UPDATE applied to an existing row, lines 187-220: overwrite exactly the
thirteen SET columns (the mutable business fields plus `scraped_at` and
`last_seen_at`) and leave every other column of the row alone. -/
def updateRow (jd : JobData) (title : String) (now : Int) (r : JobRow) : JobRow :=
  { r with
    title := title
    description := jd.description
    bidsCount := jd.bidsCount
    budget := jd.budget
    budgetMin := jd.budgetMin
    budgetMax := jd.budgetMax
    budgetType := jd.budgetType
    skills := skillsJson jd
    clientRating := jd.clientRating
    clientPaymentVerified := jd.clientPaymentVerified
    clientLastReply := jd.clientLastReply
    scrapedAt := now
    lastSeenAt := now }

/-- `save_job(job_data)`, src/storage/database.py lines 133-223: compute `is_new`
via `job_exists` (line 139), then INSERT (lines 146-186) or `UPDATE ... WHERE id
= ?` (lines 187-220), and return `is_new`.  The INSERT writes `job_data` values
into the NOT NULL columns `title` and `url`, and the UPDATE SET list includes
`title`, so a null value there raises sqlite3.IntegrityError (`Except.error`).
In the update branch `jd.id` is necessarily non-null, because `job_exists` is
false on null. -/
def save_job (store : Store) (jd : JobData) (now : Int) : Except String (Store × Bool) :=
  if job_exists store jd.id then
    match jd.title with
    | some title =>
      .ok (store.map fun e =>
        if e.1 = jd.id then (e.1, updateRow jd title now e.2) else e, false)
    | none => .error "NOT NULL constraint failed: jobs.title"
  else
    match jd.title, jd.url with
    | some title, some url =>
      .ok (store ++ [(jd.id, insertRow jd title url now)], true)
    | none, _ => .error "NOT NULL constraint failed: jobs.title"
    | some _, none => .error "NOT NULL constraint failed: jobs.url"

/-- `mark_job_sent_to_slack(job_id)`, lines 225-237:
`UPDATE jobs SET sent_to_slack = 1, slack_sent_at = now WHERE id = ? AND
sent_to_slack = 0`, returning `cursor.rowcount > 0`. -/
def mark_job_sent_to_slack (store : Store) (jobId : String) (now : Int) : Store × Bool :=
  (store.map fun e =>
      if e.1 = some jobId && !e.2.sentToSlack then
        (e.1, { e.2 with sentToSlack := true, slackSentAt := some now })
      else e,
    store.any fun e => e.1 = some jobId && !e.2.sentToSlack)

/-- `mark_job_exported_to_sheets(job_id)`, lines 252-264: the same one-way
transition for the sheets flag and timestamp. -/
def mark_job_exported_to_sheets (store : Store) (jobId : String) (now : Int) : Store × Bool :=
  (store.map fun e =>
      if e.1 = some jobId && !e.2.exportedToSheets then
        (e.1, { e.2 with exportedToSheets := true, sheetsExportedAt := some now })
      else e,
    store.any fun e => e.1 = some jobId && !e.2.exportedToSheets)

/-- The first row stored under a given non-null id (`SELECT ... WHERE id = ?`
with `fetchone`). -/
def getRow (store : Store) (jobId : String) : Option JobRow :=
  (store.find? fun e => e.1 = some jobId).map fun e => e.2

instance {ε α : Type} [DecidableEq ε] [DecidableEq α] : DecidableEq (Except ε α) :=
  fun a b =>
    match a, b with
    | .error e1, .error e2 =>
      if h : e1 = e2 then .isTrue (by rw [h])
      else .isFalse (by intro hc; cases hc; exact h rfl)
    | .error _, .ok _ => .isFalse (by intro hc; cases hc)
    | .ok _, .error _ => .isFalse (by intro hc; cases hc)
    | .ok a1, .ok a2 =>
      if h : a1 = a2 then .isTrue (by rw [h])
      else .isFalse (by intro hc; cases hc; exact h rfl)

/-! Helper lemmas about the association-list store. -/

/-- `find?` by key commutes with a key-preserving map. -/
theorem find?_map_key (l : Store) (f : Option String × JobRow → Option String × JobRow)
    (hf : ∀ e, (f e).1 = e.1) (i : String) :
    (l.map f).find? (fun e => e.1 = some i) =
      (l.find? fun e => e.1 = some i).map f := by
  induction l with
  | nil => rfl
  | cons a l ih =>
    by_cases h : a.1 = some i
    · rw [List.map_cons, List.find?_cons_of_pos _ (by simp [hf, h]),
        List.find?_cons_of_pos _ (by simp [h])]
      rfl
    · rw [List.map_cons, List.find?_cons_of_neg _ (by simp [hf, h]),
        List.find?_cons_of_neg _ (by simp [h]), ih]

/-- A map that fixes every element of the list is the identity on it. -/
theorem map_eq_self_of_fixes {α : Type} (l : List α) (f : α → α)
    (h : ∀ e ∈ l, f e = e) : l.map f = l := by
  induction l with
  | nil => rfl
  | cons a l ih =>
    rw [List.map_cons, h a (by simp), ih fun e he => h e (by simp [he])]

/-- `getRow` after a key-preserving map: the first matching row, transformed. -/
theorem getRow_map_key (l : Store) (f : Option String × JobRow → Option String × JobRow)
    (hf : ∀ e, (f e).1 = e.1) (i : String) :
    getRow (l.map f) i = (l.find? fun e => e.1 = some i).map fun e => (f e).2 := by
  rw [getRow, find?_map_key l f hf i, Option.map_map]
  rfl

/-- In a list with no duplicate keys, two members with the same key coincide. -/
theorem eq_of_mem_nodup_keys (l : Store) (hN : (l.map Prod.fst).Nodup)
    (e1 e2 : Option String × JobRow) (h1 : e1 ∈ l) (h2 : e2 ∈ l) (hk : e1.1 = e2.1) :
    e1 = e2 := by
  induction l with
  | nil => cases h1
  | cons a l ih =>
    rw [List.map_cons, List.nodup_cons] at hN
    cases List.mem_cons.mp h1 with
    | inl h1a =>
      cases List.mem_cons.mp h2 with
      | inl h2a => rw [h1a, h2a]
      | inr h2l =>
        exfalso
        apply hN.1
        rw [h1a] at hk
        rw [hk]
        exact List.mem_map_of_mem Prod.fst h2l
    | inr h1l =>
      cases List.mem_cons.mp h2 with
      | inl h2a =>
        exfalso
        apply hN.1
        rw [h2a] at hk
        rw [← hk]
        exact List.mem_map_of_mem Prod.fst h1l
      | inr h2l => exact ih hN.2 h1l h2l

/-- `mark_job_sent_to_slack` is a no-op returning false when every row under the
given id (if any) already has the flag set. -/
theorem mark_sent_noop (store : Store) (i : String) (t : Int)
    (h : ∀ e ∈ store, e.1 = some i → e.2.sentToSlack = true) :
    mark_job_sent_to_slack store i t = (store, false) := by
  rw [mark_job_sent_to_slack]
  have hcond : ∀ e ∈ store, (e.1 = some i && !e.2.sentToSlack) = false := by
    intro e he
    by_cases hk : e.1 = some i
    · simp [hk, h e he hk]
    · simp [hk]
  simp only [Prod.mk.injEq]
  constructor
  · apply map_eq_self_of_fixes
    intro e he
    rw [if_neg (by simp [hcond e he])]
  · simp only [List.any_eq_false]
    intro e he
    simp [hcond e he]

/-- C2: for every stored record id, `mark_job_sent_to_slack` flips the flag and
returns true exactly on a record whose flag is still false; a call on an
already-sent record (in a store with unique ids, as every reachable store has) or
on an absent id returns false and leaves the store, in particular
`slack_sent_at`, untouched; and no call ever moves a set flag back: rows whose
flag is true are left exactly as they were. -/
theorem c2_mark_sent_at_most_once (store : Store) (i : String) (t : Int) :
    (∀ row : JobRow, getRow store i = some row → row.sentToSlack = false →
        (mark_job_sent_to_slack store i t).2 = true ∧
          getRow (mark_job_sent_to_slack store i t).1 i =
            some { row with sentToSlack := true, slackSentAt := some t }) ∧
      ((store.map Prod.fst).Nodup → ∀ row : JobRow, getRow store i = some row →
        row.sentToSlack = true → mark_job_sent_to_slack store i t = (store, false)) ∧
      (getRow store i = none → mark_job_sent_to_slack store i t = (store, false)) ∧
      (∀ (j : String) (row : JobRow), getRow store j = some row → row.sentToSlack = true →
        getRow (mark_job_sent_to_slack store i t).1 j = some row) := by
  refine ⟨?_, ?_, ?_, ?_⟩
  · intro row hrow hsent
    rw [getRow] at hrow
    obtain ⟨e0, hfind, he0⟩ : ∃ e0, (store.find? fun e => e.1 = some i) = some e0 ∧ e0.2 = row := by
      cases hf : store.find? fun e => e.1 = some i with
      | none => rw [hf] at hrow; cases hrow
      | some e0 => rw [hf] at hrow; exact ⟨e0, rfl, by simpa using hrow⟩
    have hkey : e0.1 = some i := by simpa using List.find?_some hfind
    have hmem : e0 ∈ store := List.mem_of_find?_eq_some hfind
    constructor
    · rw [mark_job_sent_to_slack]
      simp only [List.any_eq_true]
      exact ⟨e0, hmem, by simp [hkey, he0, hsent]⟩
    · rw [mark_job_sent_to_slack]
      rw [getRow_map_key _ _ (fun e => by dsimp only; split <;> rfl) i, hfind]
      simp [hkey, he0, hsent]
  · intro hN row hrow hsent
    apply mark_sent_noop
    intro e he hk
    rw [getRow] at hrow
    obtain ⟨e0, hfind, he0⟩ : ∃ e0, (store.find? fun e => e.1 = some i) = some e0 ∧ e0.2 = row := by
      cases hf : store.find? fun e => e.1 = some i with
      | none => rw [hf] at hrow; cases hrow
      | some e0 => rw [hf] at hrow; exact ⟨e0, rfl, by simpa using hrow⟩
    have hkey : e0.1 = some i := by simpa using List.find?_some hfind
    have hmem : e0 ∈ store := List.mem_of_find?_eq_some hfind
    have he : e = e0 := eq_of_mem_nodup_keys store hN e e0 he hmem (by rw [hk, hkey])
    rw [he, he0]
    exact hsent
  · intro hnone
    apply mark_sent_noop
    intro e he hk
    rw [getRow] at hnone
    have hfn : (store.find? fun e => e.1 = some i) = none := by
      cases hf : store.find? fun e => e.1 = some i with
      | none => rfl
      | some e0 => rw [hf] at hnone; cases hnone
    rw [List.find?_eq_none] at hfn
    exact absurd (by simpa using hk) (by simpa using hfn e he)
  · intro j row hrow hsent
    rw [mark_job_sent_to_slack]
    rw [getRow] at hrow
    obtain ⟨e0, hfind, he0⟩ : ∃ e0, (store.find? fun e => e.1 = some j) = some e0 ∧ e0.2 = row := by
      cases hf : store.find? fun e => e.1 = some j with
      | none => rw [hf] at hrow; cases hrow
      | some e0 => rw [hf] at hrow; exact ⟨e0, rfl, by simpa using hrow⟩
    rw [getRow_map_key _ _ (fun e => by dsimp only; split <;> rfl) j, hfind]
    rw [show ∀ (f : Option String × JobRow → JobRow) (o : Option String × JobRow),
      Option.map f (some o) = some (f o) from fun f o => rfl]
    have hc : (e0.1 = some i && !e0.2.sentToSlack) = false := by
      simp [he0, hsent]
    rw [if_neg (by simp [hc]), he0]

/-! Concrete example values used by the witnesses. -/

/-- A job record with every optional field null, the parser defaults elsewhere. -/
def baseJobData : JobData :=
  { id := none, title := none, description := none, url := none,
    postedDateRelative := none, postedDateTimestamp := none, bidsCount := none,
    budget := none, budgetMin := none, budgetMax := none, budgetType := none,
    skills := [], clientName := none, clientCountry := none, clientRating := none,
    clientPaymentVerified := false, clientLastReply := none, isFeatured := false,
    isMaxProject := false }

/-- Example record "j1" by client Alice. -/
def exJd : JobData :=
  { baseJobData with
    id := some "j1", title := some "T", url := some "U",
    clientName := some "Alice" }

/-- The store after inserting `exJd` at time 1. -/
def exStore1 : Store :=
  match save_job [] exJd 1 with
  | .ok (s, _) => s
  | .error _ => []

/-- The row `exStore1` holds under "j1". -/
def exRow1 : JobRow := insertRow exJd "T" "U" 1

/-- Witness for C2 at a concrete one-row store: the first mark returns true, the
second returns false and changes nothing, and a mark on an absent id returns
false and changes nothing. -/
theorem c2_mark_sent_at_most_once_witness :
    (mark_job_sent_to_slack exStore1 "j1" 7).2 = true ∧
      mark_job_sent_to_slack (mark_job_sent_to_slack exStore1 "j1" 7).1 "j1" 8 =
        ((mark_job_sent_to_slack exStore1 "j1" 7).1, false) ∧
      mark_job_sent_to_slack exStore1 "zz" 9 = (exStore1, false) := by
  refine ⟨?_, ?_, ?_⟩
  · exact ((c2_mark_sent_at_most_once exStore1 "j1" 7).1 exRow1 (by decide) (by decide)).1
  · exact (c2_mark_sent_at_most_once (mark_job_sent_to_slack exStore1 "j1" 7).1 "j1" 8).2.1
      (by decide) { exRow1 with sentToSlack := true, slackSentAt := some 7 }
      (by decide) (by decide)
  · exact (c2_mark_sent_at_most_once exStore1 "zz" 9).2.2.1 (by decide)

/-- C1: updating a stored id via `save_job` (in particular, re-saving a record
identical to the stored one) returns is_new = false, overwrites exactly the
mutable business columns, sets `last_seen_at` and `scraped_at` to now, and leaves
`first_seen_at`, both delivery flags with their timestamps, `client_name`, `url`
and `posted_date_relative` exactly as they were; rows under other ids are
untouched. -/
theorem c1_upsert_update_frame (store : Store) (jd : JobData) (i ttl : String)
    (t : Int) (row : JobRow) (hid : jd.id = some i) (httl : jd.title = some ttl)
    (hrow : getRow store i = some row) :
    ∃ store2, save_job store jd t = .ok (store2, false) ∧
      getRow store2 i = some (updateRow jd ttl t row) ∧
      (∀ j, j ≠ i → getRow store2 j = getRow store j) ∧
      (updateRow jd ttl t row).firstSeenAt = row.firstSeenAt ∧
      (updateRow jd ttl t row).sentToSlack = row.sentToSlack ∧
      (updateRow jd ttl t row).slackSentAt = row.slackSentAt ∧
      (updateRow jd ttl t row).exportedToSheets = row.exportedToSheets ∧
      (updateRow jd ttl t row).sheetsExportedAt = row.sheetsExportedAt ∧
      (updateRow jd ttl t row).clientName = row.clientName ∧
      (updateRow jd ttl t row).url = row.url ∧
      (updateRow jd ttl t row).postedDateRelative = row.postedDateRelative ∧
      (updateRow jd ttl t row).lastSeenAt = t ∧
      (updateRow jd ttl t row).scrapedAt = t ∧
      (updateRow jd ttl t row).title = ttl := by
  obtain ⟨e0, hfind, he0⟩ : ∃ e0, (store.find? fun e => e.1 = some i) = some e0 ∧ e0.2 = row := by
    rw [getRow] at hrow
    cases hf : store.find? fun e => e.1 = some i with
    | none => rw [hf] at hrow; cases hrow
    | some e0 => rw [hf] at hrow; exact ⟨e0, rfl, by simpa using hrow⟩
  have hkey : e0.1 = some i := by simpa using List.find?_some hfind
  have hmem : e0 ∈ store := List.mem_of_find?_eq_some hfind
  have hex : job_exists store jd.id = true := by
    rw [hid, job_exists, List.any_eq_true]
    exact ⟨e0, hmem, by simp [hkey]⟩
  refine ⟨store.map fun e => if e.1 = jd.id then (e.1, updateRow jd ttl t e.2) else e,
    ?_, ?_, ?_, rfl, rfl, rfl, rfl, rfl, rfl, rfl, rfl, rfl, rfl, rfl⟩
  · rw [save_job, if_pos hex, httl]
  · rw [getRow_map_key _ _ (fun e => by split <;> rfl) i, hfind]
    rw [show ∀ (f : Option String × JobRow → JobRow) (o : Option String × JobRow),
      Option.map f (some o) = some (f o) from fun f o => rfl]
    rw [if_pos (by rw [hkey, hid]), he0]
  · intro j hj
    rw [getRow_map_key _ _ (fun e => by split <;> rfl) j, getRow]
    cases hf : store.find? fun e => e.1 = some j with
    | none => rfl
    | some e1 =>
      have hkey1 : e1.1 = some j := by simpa using List.find?_some hf
      have hne : ¬ e1.1 = jd.id := by rw [hkey1, hid]; simp [hj]
      simp [hne]

/-- The store after re-saving `exJd` at time 2 (the update path). -/
def exStore1b : Store :=
  match save_job exStore1 exJd 2 with
  | .ok (s, _) => s
  | .error _ => []

/-- Witness for C1: re-saving the identical record "j1" at time 2. -/
theorem c1_upsert_update_frame_witness :
    save_job exStore1 exJd 2 = .ok (exStore1b, false) ∧
      getRow exStore1b "j1" = some (updateRow exJd "T" 2 exRow1) ∧
      (updateRow exJd "T" 2 exRow1).firstSeenAt = 1 ∧
      (updateRow exJd "T" 2 exRow1).lastSeenAt = 2 ∧
      (updateRow exJd "T" 2 exRow1).sentToSlack = false := by
  obtain ⟨st2, h1, h2, -⟩ :=
    c1_upsert_update_frame exStore1 exJd "j1" "T" 2 exRow1 (by decide) (by decide) (by decide)
  have hc : save_job exStore1 exJd 2 = .ok (exStore1b, false) := by decide
  have hst : st2 = exStore1b := by
    rw [h1] at hc
    simpa using hc
  rw [hst] at h2
  exact ⟨hc, h2, by decide, by decide, by decide⟩

/-- `find?` skips a left part that satisfies the predicate nowhere. -/
theorem find?_append_right {α : Type} (p : α → Bool) (l1 l2 : List α)
    (h : ∀ e ∈ l1, p e = false) : (l1 ++ l2).find? p = l2.find? p := by
  induction l1 with
  | nil => rfl
  | cons a l ih =>
    rw [List.cons_append, List.find?_cons_of_neg _ (by simp [h a (by simp)])]
    exact ih fun e he => h e (by simp [he])

/-- The record of the C9 counterexample: a fresh id with a null title (the
selenium parser can produce exactly this when the title element exists but its
text is empty, since `safe_get_text` turns empty text into `None`). -/
def c9jd : JobData :=
  { baseJobData with
    id := some "no-title-job",
    url := some "https://www.workana.com/job/no-title-job" }

/-- C9 counterexample: the claim says `save_job` creates a record for every
unseen non-empty id even when the optional title is null, but the schema declares
`title TEXT NOT NULL` (create_tables line 28), so the INSERT raises
sqlite3.IntegrityError instead of creating the record. -/
theorem c9_null_title_counterexample :
    save_job [] c9jd 0 = .error "NOT NULL constraint failed: jobs.title" := by decide

/-- C9 (amended): `save_job` creates a record for every input whose id is
non-empty and unseen provided its title (and url) are non-null — description may
be null — with all three timestamps set to now and the delivery flags cleared;
when the title is null the INSERT violates the `jobs.title` NOT NULL constraint
and raises instead of creating the record. -/
theorem c9_insert_amended (store : Store) (jd : JobData) (i ttl u : String) (t : Int)
    (hid : jd.id = some i) (_hne : i ≠ "") (hnew : job_exists store jd.id = false) :
    (jd.title = some ttl → jd.url = some u →
        save_job store jd t = .ok (store ++ [(some i, insertRow jd ttl u t)], true) ∧
          getRow (store ++ [(some i, insertRow jd ttl u t)]) i = some (insertRow jd ttl u t) ∧
          (insertRow jd ttl u t).firstSeenAt = t ∧
          (insertRow jd ttl u t).lastSeenAt = t ∧
          (insertRow jd ttl u t).scrapedAt = t ∧
          (insertRow jd ttl u t).sentToSlack = false ∧
          (insertRow jd ttl u t).slackSentAt = none ∧
          (insertRow jd ttl u t).exportedToSheets = false ∧
          (insertRow jd ttl u t).sheetsExportedAt = none) ∧
      (jd.title = none →
        save_job store jd t = .error "NOT NULL constraint failed: jobs.title") := by
  have hall : ∀ e ∈ store, (decide (e.1 = some i) : Bool) = false := by
    rw [hid, job_exists] at hnew
    intro e he
    simp only [List.any_eq_false] at hnew
    simpa using hnew e he
  constructor
  · intro httl hurl
    refine ⟨?_, ?_, rfl, rfl, rfl, rfl, rfl, rfl, rfl⟩
    · rw [save_job, if_neg (by rw [hnew]; simp), httl, hurl, hid]
    · rw [getRow, find?_append_right _ _ _ hall,
        List.find?_cons_of_pos _ (by simp)]
      rfl
  · intro httl
    rw [save_job, if_neg (by rw [hnew]; simp), httl]

/-- Witness for C9 (amended): a successful insert and a rejected null-title
insert, both at concrete records. -/
theorem c9_insert_amended_witness :
    save_job [] exJd 1 = .ok ([(some "j1", insertRow exJd "T" "U" 1)], true) ∧
      save_job [] { baseJobData with id := some "x9", url := some "u9" } 0 =
        .error "NOT NULL constraint failed: jobs.title" := by
  constructor
  · exact ((c9_insert_amended [] exJd "j1" "T" "U" 1 (by decide) (by decide)
      (by decide)).1 (by decide) (by decide)).1
  · exact (c9_insert_amended [] { baseJobData with id := some "x9", url := some "u9" }
      "x9" "T" "U" 0 (by decide) (by decide) (by decide)).2 (by decide)

/-! Reachable store states, for C10.  `save_job`'s only call site
(src/main.py lines 51-55) guards `if not job.get('id'): continue`, so every saved
record carries a non-empty id; the two flag updates may be called with any id. -/

/-- The store states the program can reach from a fresh database. -/
inductive Reachable : Store → Prop
  | empty : Reachable []
  | save {st : Store} {jd : JobData} {t : Int} {st2 : Store} {b : Bool} {s : String}
      (h : Reachable st) (hid : jd.id = some s) (hs : s ≠ "")
      (hok : save_job st jd t = .ok (st2, b)) : Reachable st2
  | sent {st : Store} (h : Reachable st) (i : String) (t : Int) :
      Reachable (mark_job_sent_to_slack st i t).1
  | exported {st : Store} (h : Reachable st) (i : String) (t : Int) :
      Reachable (mark_job_exported_to_sheets st i t).1

/-- Every reachable store has pairwise distinct id keys: inserts happen only when
`job_exists` is false and every other operation updates rows in place. -/
theorem reachable_nodup_keys {st : Store} (h : Reachable st) :
    (st.map Prod.fst).Nodup := by
  induction h with
  | empty => simp
  | @save st jd t st2 b s h hid hs hok ih =>
    rw [save_job] at hok
    split at hok
    · split at hok
      · simp only [Except.ok.injEq, Prod.mk.injEq] at hok
        rw [← hok.1, List.map_map]
        have hcomp : ∀ ttl : String, st.map (Prod.fst ∘ fun e =>
            if e.1 = jd.id then (e.1, updateRow jd ttl t e.2) else e) = st.map Prod.fst :=
          fun ttl => List.map_congr_left fun e _ => by
            dsimp only [Function.comp]; split <;> rfl
        rw [hcomp]
        exact ih
      · cases hok
    · rename_i hex
      split at hok
      · simp only [Except.ok.injEq, Prod.mk.injEq] at hok
        rw [← hok.1, List.map_append]
        have hnotin : jd.id ∉ st.map Prod.fst := by
          rw [hid] at hex ⊢
          simp only [Bool.not_eq_true, job_exists, List.any_eq_false] at hex
          simp only [List.mem_map, not_exists, not_and]
          intro e he
          have hf := hex e he
          simp only [decide_eq_false_iff_not] at hf
          intro hc
          exact hf hc
        simp [List.nodup_append, ih, hnotin, List.disjoint_singleton]
      · cases hok
      · cases hok
  | @sent st h i t ih =>
    rw [mark_job_sent_to_slack]
    dsimp only
    rw [List.map_map]
    have hcomp : st.map (Prod.fst ∘ fun e =>
        if e.1 = some i && !e.2.sentToSlack then
          (e.1, { e.2 with sentToSlack := true, slackSentAt := some t })
        else e) = st.map Prod.fst :=
      List.map_congr_left fun e _ => by dsimp only [Function.comp]; split <;> rfl
    rw [hcomp]
    exact ih
  | @exported st h i t ih =>
    rw [mark_job_exported_to_sheets]
    dsimp only
    rw [List.map_map]
    have hcomp : st.map (Prod.fst ∘ fun e =>
        if e.1 = some i && !e.2.exportedToSheets then
          (e.1, { e.2 with exportedToSheets := true, sheetsExportedAt := some t })
        else e) = st.map Prod.fst :=
      List.map_congr_left fun e _ => by dsimp only [Function.comp]; split <;> rfl
    rw [hcomp]
    exact ih

/-- C10: in every reachable store the jobs table holds at most one row — hence at
most one composite key — per id (two members with equal id columns are the same
row); and a `save_job` call that returns is_new = false (the UPDATE path) leaves
the key universe of `get_existing_job_ids` unchanged, because the UPDATE never
touches `client_name` — so re-observing an existing id under a different client
name never adds the new id|client pairing to the key universe. -/
theorem c10_one_key_per_id :
    (∀ st : Store, Reachable st → ∀ e1 ∈ st, ∀ e2 ∈ st, e1.1 = e2.1 → e1 = e2) ∧
      (∀ (st st2 : Store) (jd : JobData) (t : Int),
        save_job st jd t = .ok (st2, false) →
        get_existing_job_ids st2 = get_existing_job_ids st) := by
  constructor
  · intro st hr e1 h1 e2 h2 hk
    exact eq_of_mem_nodup_keys st (reachable_nodup_keys hr) e1 e2 h1 h2 hk
  · intro st st2 jd t hok
    rw [save_job] at hok
    split at hok
    · split at hok
      · simp only [Except.ok.injEq, Prod.mk.injEq] at hok
        rw [← hok.1]
        rw [get_existing_job_ids, get_existing_job_ids, List.map_map]
        refine List.map_congr_left fun e _ => ?_
        dsimp only [Function.comp]
        split <;> rfl
      · cases hok
    · split at hok
      · simp only [Except.ok.injEq, Prod.mk.injEq] at hok
        cases hok.2
      · cases hok
      · cases hok

/-- A second record, id "j2" by client Bob. -/
def exJd2 : JobData :=
  { baseJobData with
    id := some "j2", title := some "T2", url := some "U2",
    clientName := some "Bob" }

/-- The store holding "j1" and "j2". -/
def exStore2 : Store :=
  match save_job exStore1 exJd2 3 with
  | .ok (s, _) => s
  | .error _ => []

/-- Record "j1" re-observed under a different client name. -/
def exJdReclient : JobData :=
  { baseJobData with
    id := some "j1", title := some "T3", url := some "U3",
    clientName := some "Carol" }

/-- The store after the re-observation of "j1" under client Carol. -/
def exStore3 : Store :=
  match save_job exStore2 exJdReclient 4 with
  | .ok (s, _) => s
  | .error _ => []

/-- Witness for C10: re-saving "j1" under a different client leaves the key
universe unchanged, and in the concrete reachable two-row store the row under
"j1" is unique. -/
theorem c10_one_key_per_id_witness :
    get_existing_job_ids exStore3 = get_existing_job_ids exStore2 ∧
      get_existing_job_ids exStore2 = ["j1|Alice", "j2|Bob"] ∧
      ((some "j1", exRow1) : Option String × JobRow) = (some "j1", exRow1) := by
  have hr1 : Reachable exStore1 :=
    Reachable.save Reachable.empty (show exJd.id = some "j1" by rfl) (by decide)
      (show save_job [] exJd 1 = .ok (exStore1, true) by decide)
  have hr2 : Reachable exStore2 :=
    Reachable.save hr1 (show exJd2.id = some "j2" by rfl) (by decide)
      (show save_job exStore1 exJd2 3 = .ok (exStore2, true) by decide)
  refine ⟨?_, by decide, ?_⟩
  · exact c10_one_key_per_id.2 exStore2 exStore3 exJdReclient 4 (by decide)
  · exact c10_one_key_per_id.1 exStore2 hr2 (some "j1", exRow1) (by decide)
      (some "j1", exRow1) (by decide) rfl

/-! Embedding of the crawl controller, src/scrapers/workana_scraper.py.  The
page-loader collaborator is the parameter `loadPage`: `loadPage n` is the parsed
listing list of page n when `load_page` succeeds on the page-n url, `none` when
it fails (timeout or transport error, `load_page` returning False, lines 87-106).
`totalPages` is what `get_total_pages` (lines 128-149, always at least 1) reads
from the loaded first page; `stopOnKnown` is the STOP_ON_KNOWN_JOB setting. -/

/-- Truthiness of `job_data.get('id')` in the skip check of `scrape_page`
(line 194): Python None and the empty string are falsy. -/
def truthyId (jd : JobData) : Bool :=
  match jd.id with
  | some s => s ≠ ""
  | none => false

/-- The composite key built at line 198:
`f"{job_data.get('id')}|{job_data.get('client_name') or ''}"`. -/
def job_key (jd : JobData) : String :=
  pyShow jd.id ++ "|" ++ orEmpty jd.clientName

/-- `scrape_page(existing_job_ids)`, src/scrapers/workana_scraper.py lines
151-212, applied to the parsed listings of the currently loaded page (the
per-listing html snapshot and `parse_job_element_from_html` of lines 176-191
already produced the `JobData` list).  A listing with falsy id is skipped
(lines 193-195); with stop-on-known enabled the loop breaks at the first listing
whose composite key is in the caller-supplied known set (lines 200-204); the
collected listings and the stop flag are returned. -/
def scrape_page (stopOnKnown : Bool) (existing : List String) :
    List JobData → List JobData × Bool
  | [] => ([], false)
  | jd :: rest =>
    if !truthyId jd then scrape_page stopOnKnown existing rest
    else if stopOnKnown && existing.contains (job_key jd) then ([], true)
    else
      let r := scrape_page stopOnKnown existing rest
      (jd :: r.1, r.2)

/-- The page-walking loop of `scrape`, lines 245-275, entered with page already
loaded: run `scrape_page` on the current page, extend the accumulator, stop on a
known job (lines 256-258), stop when the next page exceeds the total (lines
261-263), stop when loading the next page fails (lines 272-275), otherwise
continue on the next page.  `fuel` bounds the iteration count; the loop runs at
most `total` iterations and `scrape` supplies fuel `total`, so the 0 case is
never taken on the calls `scrape` makes. -/
def scrapeLoop (stopOnKnown : Bool) (existing : List String)
    (loadPage : Nat → Option (List JobData)) (total : Nat) :
    Nat → Nat → List JobData → List JobData
  | 0, _, acc => acc
  | fuel + 1, page, acc =>
    if page > total then acc
    else
      let r := scrape_page stopOnKnown existing ((loadPage page).getD [])
      let acc2 := acc ++ r.1
      if r.2 then acc2
      else if page + 1 > total then acc2
      else if (loadPage (page + 1)).isNone then acc2
      else scrapeLoop stopOnKnown existing loadPage total fuel (page + 1) acc2

/-- `scrape(category, language, existing_job_ids, max_pages)`,
src/scrapers/workana_scraper.py lines 214-280: a failing first load ends the
session with the empty accumulator (lines 234-235); otherwise the total page
count is read and clamped by a truthy `max_pages` (lines 238-242; `maxPages = 0`
embeds a falsy None) and the loop walks the pages.  The session's return value is
the ordered list of scraped records, and nothing else. -/
def scrape (stopOnKnown : Bool) (existing : List String) (maxPages : Nat)
    (loadPage : Nat → Option (List JobData)) (totalPages : Nat) : List JobData :=
  if (loadPage 1).isNone then []
  else
    let total := if maxPages ≠ 0 then min totalPages maxPages else totalPages
    scrapeLoop stopOnKnown existing loadPage total total 1 []

/-- The way a session's loop ends, one constructor per exit point of `scrape`.
The source prints these cases (lines 234, 257, 262-263, 274) but returns only the
job list; recording the taken exit is a verification instrument.  The spec's
page-limit reason cannot be a separate exit: the max_pages clamp is applied to
`total` before the loop, so a session cut by the limit takes the same exit as one
that exhausted the site's pages. -/
inductive StopCause
  | loadFailure
  | hitKnownJob
  | exhaustedPages
deriving DecidableEq, Repr

/-- `scrapeLoop` with the taken exit recorded. -/
def scrapeLoopR (stopOnKnown : Bool) (existing : List String)
    (loadPage : Nat → Option (List JobData)) (total : Nat) :
    Nat → Nat → List JobData → List JobData × StopCause
  | 0, _, acc => (acc, .exhaustedPages)
  | fuel + 1, page, acc =>
    if page > total then (acc, .exhaustedPages)
    else
      let r := scrape_page stopOnKnown existing ((loadPage page).getD [])
      let acc2 := acc ++ r.1
      if r.2 then (acc2, .hitKnownJob)
      else if page + 1 > total then (acc2, .exhaustedPages)
      else if (loadPage (page + 1)).isNone then (acc2, .loadFailure)
      else scrapeLoopR stopOnKnown existing loadPage total fuel (page + 1) acc2

/-- `scrape` with the taken exit recorded. -/
def scrapeR (stopOnKnown : Bool) (existing : List String) (maxPages : Nat)
    (loadPage : Nat → Option (List JobData)) (totalPages : Nat) :
    List JobData × StopCause :=
  if (loadPage 1).isNone then ([], .loadFailure)
  else
    let total := if maxPages ≠ 0 then min totalPages maxPages else totalPages
    scrapeLoopR stopOnKnown existing loadPage total total 1 []

/-- The loop and its instrumented twin compute the same job list. -/
theorem scrapeLoop_eq_fst (s : Bool) (e : List String)
    (lp : Nat → Option (List JobData)) (total : Nat) :
    ∀ (fuel page : Nat) (acc : List JobData),
      scrapeLoop s e lp total fuel page acc =
        (scrapeLoopR s e lp total fuel page acc).1 := by
  intro fuel
  induction fuel with
  | zero => intro page acc; rfl
  | succ m ih =>
    intro page acc
    simp only [scrapeLoop, scrapeLoopR]
    by_cases h1 : page > total
    · simp [h1]
    · simp only [if_neg h1]
      by_cases h2 : (scrape_page s e ((lp page).getD [])).2 <;>
        by_cases h3 : page + 1 > total <;>
          by_cases h4 : (lp (page + 1)).isNone <;>
            simp [h2, h3, h4, ih]

/-- `scrape` and its instrumented twin compute the same job list. -/
theorem scrape_eq_fst (s : Bool) (e : List String) (m : Nat)
    (lp : Nat → Option (List JobData)) (tp : Nat) :
    scrape s e m lp tp = (scrapeR s e m lp tp).1 := by
  rw [scrape, scrapeR]
  by_cases h : (lp 1).isNone
  · simp [h]
  · simp [h, scrapeLoop_eq_fst]

/-- With stop-on-known disabled a page contributes every id-bearing listing in
order and never raises the stop flag. -/
theorem scrape_page_disabled (e : List String) (l : List JobData) :
    scrape_page false e l = (l.filter truthyId, false) := by
  induction l with
  | nil => rfl
  | cons jd rest ih =>
    rw [scrape_page]
    by_cases h : truthyId jd
    · simp [h, ih, List.filter_cons]
    · simp [h, ih, List.filter_cons]

/-- With stop-on-known enabled the page halts at the first id-bearing listing
whose composite key is known, returning exactly the id-bearing listings that came
before it and the stop flag. -/
theorem scrape_page_halts (e : List String) (pre : List JobData) (jd : JobData)
    (post : List JobData)
    (hpre : ∀ x ∈ pre, truthyId x = true → e.contains (job_key x) = false)
    (hjd : truthyId jd = true) (hkey : e.contains (job_key jd) = true) :
    scrape_page true e (pre ++ jd :: post) = (pre.filter truthyId, true) := by
  induction pre with
  | nil =>
    have hkm : job_key jd ∈ e := by simpa using hkey
    rw [List.nil_append, scrape_page]
    simp [hjd, hkm]
  | cons a pre ih =>
    rw [List.cons_append, scrape_page]
    by_cases ha : truthyId a
    · have hka : job_key a ∉ e := by simpa using hpre a (by simp) ha
      rw [if_neg (by simp [ha]), if_neg (by simp [hka])]
      dsimp only
      rw [ih fun x hx ht => hpre x (by simp [hx]) ht]
      simp [List.filter_cons, ha]
    · rw [if_pos (by simp [ha])]
      rw [ih fun x hx ht => hpre x (by simp [hx]) ht]
      simp [List.filter_cons, ha]

/-- A run of the page loop over pages `page..k`: when every page up to `k` loads
and raises no stop flag, and the loop ends at `k` (either `k` is the last page or
loading page `k+1` fails), the result is the accumulator extended by each page's
scraped listings in page order. -/
theorem scrapeLoop_run (s : Bool) (e : List String)
    (lp : Nat → Option (List JobData)) (total k : Nat)
    (hk : k ≤ total)
    (hload : ∀ n, 1 ≤ n → n ≤ k → (lp n).isSome = true)
    (hstop : ∀ n, 1 ≤ n → n ≤ k → (scrape_page s e ((lp n).getD [])).2 = false)
    (hend : k = total ∨ (lp (k + 1)).isNone = true) :
    ∀ (fuel page : Nat) (acc : List JobData), 1 ≤ page → page ≤ k → k - page < fuel →
      scrapeLoop s e lp total fuel page acc =
        acc ++ (List.range' page (k + 1 - page)).flatMap
          (fun n => (scrape_page s e ((lp n).getD [])).1) := by
  intro fuel
  induction fuel with
  | zero => intro page acc h1 h2 h3; omega
  | succ m ih =>
    intro page acc h1 h2 h3
    simp only [scrapeLoop]
    rw [if_neg (by omega)]
    rw [if_neg (by simp [hstop page h1 h2])]
    by_cases hpk : page = k
    · subst hpk
      by_cases hpt : page + 1 > total
      · rw [if_pos hpt]
        simp [show page + 1 - page = 1 by omega, List.range']
      · rw [if_neg hpt]
        have hnone : (lp (page + 1)).isNone = true := by
          rcases hend with h | h
          · exact absurd (by omega : page + 1 > total) hpt
          · exact h
        rw [if_pos hnone]
        simp [show page + 1 - page = 1 by omega, List.range']
    · have hlt : page < k := by omega
      rw [if_neg (by omega : ¬ page + 1 > total)]
      have hsome : (lp (page + 1)).isSome = true := hload (page + 1) (by omega) (by omega)
      have hnn : (lp (page + 1)).isNone = false := by
        cases hlp : lp (page + 1) with
        | none => rw [hlp] at hsome; cases hsome
        | some v => rfl
      rw [if_neg (by simp [hnn])]
      rw [ih (page + 1) (acc ++ (scrape_page s e ((lp page).getD [])).1)
        (by omega) (by omega) (by omega)]
      rw [show k + 1 - page = (k + 1 - (page + 1)) + 1 by omega, List.range'_succ]
      simp [List.append_assoc]

/-- Example listing "a1" used in the scraper witnesses. -/
def pgJob : JobData :=
  { baseJobData with
    id := some "a1", title := some "tA", url := some "uA" }

/-- C3 counterexample: the claim says the session's output includes an explicit
stop reason, but `scrape` returns only the job list (lines 214-280 return
`all_jobs` and nothing else): two sessions that end through different exits — one
exhausting its single page, one failing to load page 2 — produce identical
outputs, so no stop reason is contained in (or recoverable from) the output. -/
theorem c3_stop_reason_counterexample :
    scrapeR false [] 5 (fun n => if n = 1 then some [pgJob] else none) 1 =
        ([pgJob], StopCause.exhaustedPages) ∧
      scrapeR false [] 5 (fun n => if n = 1 then some [pgJob] else none) 2 =
        ([pgJob], StopCause.loadFailure) ∧
      scrape false [] 5 (fun n => if n = 1 then some [pgJob] else none) 1 =
        scrape false [] 5 (fun n => if n = 1 then some [pgJob] else none) 2 := by
  refine ⟨by decide, by decide, by decide⟩

/-- C3 (amended): the session's output is the full ordered list of extracted
records only — the stop condition (pages exhausted, known job hit, load failure;
a max_pages cut takes the pages-exhausted exit because the clamp precedes the
loop) determines where accumulation ends but is not part of the returned value,
as the instrumented twin shows; with stop-on-known enabled the session halts
mid-page at the first listing whose composite key is in the caller-supplied known
set; with it disabled every available page within the page limits is walked and
contributes its id-bearing listings in order. -/
theorem c3_session_output_amended :
    (∀ (s : Bool) (e : List String) (m : Nat) (lp : Nat → Option (List JobData)) (tp : Nat),
        scrape s e m lp tp = (scrapeR s e m lp tp).1) ∧
      (∀ (e : List String) (pre : List JobData) (jd : JobData) (post : List JobData),
        (∀ x ∈ pre, truthyId x = true → e.contains (job_key x) = false) →
        truthyId jd = true → e.contains (job_key jd) = true →
        scrape_page true e (pre ++ jd :: post) = (pre.filter truthyId, true)) ∧
      (∀ (e : List String) (l : List JobData),
        scrape_page false e l = (l.filter truthyId, false)) ∧
      (∀ (e : List String) (m : Nat) (lp : Nat → Option (List JobData)) (tp : Nat),
        1 ≤ (if m ≠ 0 then min tp m else tp) →
        (∀ n, 1 ≤ n → n ≤ (if m ≠ 0 then min tp m else tp) → (lp n).isSome = true) →
        scrape false e m lp tp =
          (List.range' 1 (if m ≠ 0 then min tp m else tp)).flatMap
            (fun n => ((lp n).getD []).filter truthyId)) := by
  refine ⟨scrape_eq_fst, scrape_page_halts, scrape_page_disabled, ?_⟩
  intro e m lp tp h1 hload
  have hsome : (lp 1).isSome = true := hload 1 (by omega) (by omega)
  have hnn : (lp 1).isNone = false := by
    cases hlp : lp 1 with
    | none => rw [hlp] at hsome; cases hsome
    | some v => rfl
  simp only [scrape, hnn, Bool.false_eq_true, if_false]
  rw [scrapeLoop_run false e lp _ _ (le_refl _) hload
    (fun n _ _ => by rw [scrape_page_disabled]) (Or.inl rfl) _ 1 [] (by omega) h1
    (by omega)]
  rw [List.nil_append, show (if m ≠ 0 then min tp m else tp) + 1 - 1 =
    (if m ≠ 0 then min tp m else tp) by omega]
  simp only [scrape_page_disabled]

/-- Witness for C3 (amended): the four parts at concrete sessions ("a1|" is the
composite key of `pgJob`, whose client name is absent). -/
theorem c3_session_output_amended_witness :
    scrape true ["a1|"] 5 (fun _ => some [pgJob]) 1 =
        (scrapeR true ["a1|"] 5 (fun _ => some [pgJob]) 1).1 ∧
      scrape_page true ["a1|"] [pgJob] = ([], true) ∧
      scrape_page false ["a1|"] [pgJob] = ([pgJob], false) ∧
      scrape false [] 5 (fun _ => some [pgJob, pgJob]) 2 = [pgJob, pgJob, pgJob, pgJob] := by
  refine ⟨c3_session_output_amended.1 true ["a1|"] 5 (fun _ => some [pgJob]) 1, ?_, ?_, ?_⟩
  · have h := c3_session_output_amended.2.1 ["a1|"] [] pgJob []
      (by intro x hx; cases hx) (by decide) (by decide)
    simpa using h
  · have h := c3_session_output_amended.2.2.1 ["a1|"] [pgJob]
    simpa using h
  · have h := c3_session_output_amended.2.2.2 [] 5 (fun _ => some [pgJob, pgJob]) 2
      (by decide) (fun n _ _ => rfl)
    rw [h]
    decide

/-- C4: a failing first load ends the session with the empty record list; a
failing load of page k+1 > 1 (after pages 1..k loaded and raised no stop flag)
ends the session with exactly the records accumulated from pages 1..k.  The
embedding is a total function, so both endings return normally rather than
raising. -/
theorem c4_load_failure_partial_results :
    (∀ (s : Bool) (e : List String) (m : Nat) (lp : Nat → Option (List JobData)) (tp : Nat),
        lp 1 = none → scrape s e m lp tp = []) ∧
      (∀ (s : Bool) (e : List String) (m : Nat) (lp : Nat → Option (List JobData)) (tp k : Nat),
        1 ≤ k → k < (if m ≠ 0 then min tp m else tp) →
        (∀ n, 1 ≤ n → n ≤ k → (lp n).isSome = true) →
        (∀ n, 1 ≤ n → n ≤ k → (scrape_page s e ((lp n).getD [])).2 = false) →
        lp (k + 1) = none →
        scrape s e m lp tp =
          (List.range' 1 k).flatMap (fun n => (scrape_page s e ((lp n).getD [])).1)) := by
  constructor
  · intro s e m lp tp h
    rw [scrape, if_pos (by simp [h])]
  · intro s e m lp tp k hk1 hklt hload hstop hfail
    have hsome : (lp 1).isSome = true := hload 1 (by omega) (by omega)
    have hnn : (lp 1).isNone = false := by
      cases hlp : lp 1 with
      | none => rw [hlp] at hsome; cases hsome
      | some v => rfl
    simp only [scrape, hnn, Bool.false_eq_true, if_false]
    rw [scrapeLoop_run s e lp _ k (by omega) hload hstop (Or.inr (by simp [hfail]))
      _ 1 [] (by omega) hk1 (by omega)]
    rw [List.nil_append, show k + 1 - 1 = k by omega]

/-- Witness for C4: a session whose first load fails returns nothing; a session
whose page-2 load fails returns exactly page 1's records. -/
theorem c4_load_failure_partial_results_witness :
    scrape false [] 3 (fun _ => none) 1 = [] ∧
      scrape false [] 0 (fun n => if n = 1 then some [pgJob] else none) 3 = [pgJob] := by
  constructor
  · exact c4_load_failure_partial_results.1 false [] 3 (fun _ => none) 1 rfl
  · have h := c4_load_failure_partial_results.2 false [] 0
      (fun n => if n = 1 then some [pgJob] else none) 3 1 (by omega) (by decide)
      (by intro n hn1 hn2; have hn : n = 1 := Nat.le_antisymm hn2 hn1; subst hn; rfl)
      (by intro n hn1 hn2; have hn : n = 1 := Nat.le_antisymm hn2 hn1; subst hn; decide)
      (by decide)
    rw [h]
    decide

end Workana
